import Mathlib

/-!
Verification development for the hex-grid DLA city-growth simulation
(`src/genuary8/sketch.js`).  The JavaScript source is shallowly embedded:
mutable objects become records threaded through pure functions, the p5.js
seeded generator (`randomSeed`/`random`) becomes an explicit linear
congruential generator state, and the wall-clock `millis()` readings become
explicit rational time inputs.  JavaScript floating-point numbers are
modelled by exact fractions (`Frac`); every number produced by the embedded
code paths is an exact dyadic-or-small-denominator rational, so exactness
only diverges from IEEE doubles far beyond the magnitudes exercised here.
-/

namespace Genuary8

/-- Exact fraction with positive denominator, the model of a JS number.
Fractions are kept unreduced so that all arithmetic is plain `Int`
arithmetic, which the kernel evaluates directly. -/
structure Frac where
  num : Int
  den : Int
  deriving DecidableEq, Repr

instance : Inhabited Frac := ⟨⟨0, 1⟩⟩

/-- Embed an integer as a fraction. -/
def Frac.ofInt (n : Int) : Frac := ⟨n, 1⟩

instance : IntCast Frac := ⟨Frac.ofInt⟩

instance : OfNat Frac n := ⟨⟨(n : Int), 1⟩⟩

def Frac.add (a b : Frac) : Frac := ⟨a.num * b.den + b.num * a.den, a.den * b.den⟩

def Frac.sub (a b : Frac) : Frac := ⟨a.num * b.den - b.num * a.den, a.den * b.den⟩

def Frac.mul (a b : Frac) : Frac := ⟨a.num * b.num, a.den * b.den⟩

def Frac.neg (a : Frac) : Frac := ⟨-a.num, a.den⟩

/-- Division; the sign is normalised into the numerator so the denominator
stays positive.  Division by a zero value never occurs on the embedded
code paths (the one JS site that could divide by zero, the service-score
fallback, is modelled separately with an explicit infinity flag). -/
def Frac.div (a b : Frac) : Frac :=
  let n := a.num * b.den
  let d := a.den * b.num
  if d < 0 then ⟨-n, -d⟩ else ⟨n, d⟩

instance : Add Frac := ⟨Frac.add⟩
instance : Sub Frac := ⟨Frac.sub⟩
instance : Mul Frac := ⟨Frac.mul⟩
instance : Div Frac := ⟨Frac.div⟩
instance : Neg Frac := ⟨Frac.neg⟩

/-- Value-level strict order (valid because denominators are positive). -/
def Frac.blt (a b : Frac) : Bool := a.num * b.den < b.num * a.den

/-- Value-level non-strict order. -/
def Frac.ble (a b : Frac) : Bool := a.num * b.den ≤ b.num * a.den

/-- Value-level equality (cross multiplication, representation independent). -/
def Frac.beq (a b : Frac) : Bool := a.num * b.den == b.num * a.den

/-- JS `Math.min` on numbers. -/
def Frac.fmin (a b : Frac) : Frac := if Frac.blt a b then a else b

/-- JS `Math.max` on numbers. -/
def Frac.fmax (a b : Frac) : Frac := if Frac.blt a b then b else a

/-- p5 `constrain(n, low, high) = max(min(n, high), low)`. -/
def constrain (n low high : Frac) : Frac := Frac.fmax (Frac.fmin n high) low

/-- `floor` of a non-negative fraction, as used by p5 `random(array)`
indexing (`floor(random()*array.length)`). -/
def Frac.floorToNat (a : Frac) : Nat := (a.num / a.den).toNat

/-! ## The p5.js seeded random generator

`randomSeed(seed)` puts the p5 LCG in state `seed`; each `random()` call
steps `state := (1664525*state + 1013904223) mod 2^32` and yields
`state / 2^32 ∈ [0,1)`. -/

/-- LCG state; the whole random stream of a run is a function of the seed. -/
abbrev Rng := Nat

/-- One LCG step (p5.js constants). -/
def lcgStep (s : Nat) : Nat := (1664525 * s + 1013904223) % 4294967296

/-- One `random()` call: the sampled value in `[0,1)` and the next state. -/
def randNext (s : Rng) : Frac × Rng :=
  let s2 := lcgStep s
  (⟨(s2 : Int), 4294967296⟩, s2)

/-! ## Static state/level tables (from the sketch's top-level constants) -/

/-- `STATE_SPACE.EMPTY`. -/
def S_EMPTY : Int := 0

/-- `STATE_SPACE.CANDIDATE`. -/
def S_CANDIDATE : Int := 1

/-- `STATE_SPACE.CRYSTALLIZED`. -/
def S_CRYSTALLIZED : Int := 2

/-- `LEVEL.EMPTY`. -/
def L_EMPTY : Int := 0

/-- `LEVEL.HOUSE`. -/
def L_HOUSE : Int := 1

/-- `LEVEL.SHOP`. -/
def L_SHOP : Int := 2

/-- `LEVEL.TOWER`. -/
def L_TOWER : Int := 3

/-- `LEVEL.FACTORY`. -/
def L_FACTORY : Int := 4

/-- One entry of the `EVOLUTION` table. -/
structure EvolutionRule where
  threshold : Nat
  next : Int
  deriving DecidableEq, Repr

/-- The `EVOLUTION` lookup table; `none` models both the explicit `null`
for `FACTORY` and the absent (`undefined`) entries outside the table,
which the source treats identically (`if (!config) return false`). -/
def EVOLUTION (l : Int) : Option EvolutionRule :=
  if l == 1 then some ⟨2, L_SHOP⟩
  else if l == 2 then some ⟨3, L_TOWER⟩
  else if l == 3 then some ⟨4, L_FACTORY⟩
  else none

/-- The `SERVICE_RANGE` table (keys `0..4`).  Outside the table the JS
lookup is `undefined`; every embedded call site only consults levels
`0..4`, so the default `0` is never observable. -/
def SERVICE_RANGE (l : Int) : Int :=
  if 0 ≤ l ∧ l ≤ 4 then l else 0

/-- The `MAX_COMPETITORS` table from `canDieFromCompetition` (keys `1..4`);
`none` models the absent entry, where the JS comparison
`length > undefined` is `false`. -/
def MAX_COMPETITORS (l : Int) : Option Nat :=
  if l == 1 then some 4
  else if l == 2 then some 2
  else if l == 3 then some 1
  else if l == 4 then some 0
  else none

/-- The tunable `controls` object (simulation-relevant fields; `paused`
only gates whether the tick body runs at all and the rendering fields are
out of scope). -/
structure Controls where
  spawnRate : Nat
  maxAgents : Nat
  stickingProb : Frac
  evolveRate : Nat
  shadowFactor : Frac
  biasedWalkChance : Frac
  decayRate : Nat
  decayProb : Frac
  deriving Repr

/-! ## Tile -/

/-- A grid cell.  The geometric fields (`x`, `y`, `z`, `size`) of the JS
constructor are rendering-only and omitted; the simulation fields are kept
verbatim.  A fresh tile has `state = 0`, `level = 0`, `targetLevel = 0`,
`morphProgress = 1`, `morphDuration = 1000`, `morphStartTime = 0`. -/
structure Tile where
  q : Int
  r : Int
  state : Int
  level : Int
  targetLevel : Int
  morphProgress : Frac
  morphDuration : Frac
  morphStartTime : Frac
  deriving DecidableEq, Repr

instance : Inhabited Tile := ⟨⟨0, 0, 0, 0, 0, 1, 1000, 0⟩⟩

/-- The JS `new Tile(q, r, size)` initial simulation state. -/
def Tile.create (q r : Int) : Tile :=
  { q := q, r := r, state := 0, level := 0,
    targetLevel := 0, morphProgress := 1, morphDuration := 1000,
    morphStartTime := 0 }

/-- `Tile.setTargetLevel(newLevel)`; `now` is the `millis()` reading. -/
def Tile.setTargetLevel (t : Tile) (newLevel : Int) (now : Frac) : Tile :=
  if newLevel == t.level then t
  else { t with targetLevel := newLevel, morphProgress := 0, morphStartTime := now }

/-- The cubic ease-in-out applied to the raw progress fraction. -/
def easeInOutCubic (p : Frac) : Frac :=
  if Frac.blt p (⟨1, 2⟩) then (4 : Frac) * p * p * p
  else (1 : Frac) - ((-2 : Frac) * p + 2) * ((-2 : Frac) * p + 2) * ((-2 : Frac) * p + 2) / 2

/-- `Tile.updateMorphing()`; `now` is the `millis()` reading.  On reaching
progress 1 the level commits to `targetLevel`, and the state drops to
`EMPTY` in the same step exactly when the target is `LEVEL.EMPTY`. -/
def Tile.updateMorphing (t : Tile) (now : Frac) : Tile :=
  if Frac.ble 1 t.morphProgress then t
  else
    let elapsed := now - t.morphStartTime
    let raw := constrain (elapsed / t.morphDuration) 0 1
    let p := easeInOutCubic raw
    let t2 := { t with morphProgress := p }
    if Frac.ble 1 p then
      let t3 := { t2 with level := t2.targetLevel }
      if t3.targetLevel == L_EMPTY then { t3 with state := S_EMPTY } else t3
    else t2

/-! ## Agent -/

/-- A walker.  The JS agent holds a reference to its current tile object;
in the embedding the reference is the tile's slot index in `grid.tiles`. -/
structure Agent where
  tileIdx : Nat
  alive : Bool
  deriving DecidableEq, Repr

/-! ## Grid -/

/-- Grid cube coordinates (`offsetToCube`). -/
structure Cube where
  x : Int
  y : Int
  z : Int
  deriving DecidableEq, Repr

/-- `Grid.offsetToCube(q, r)`.  JS `q & 1` is the non-negative bit, i.e.
`q.emod 2`; the numerator `q - (q & 1)` is always even, so every integer
division convention yields the same quotient. -/
def offsetToCube (q r : Int) : Cube :=
  let x := q
  let z := r - (q - q % 2) / 2
  let y := -x - z
  ⟨x, y, z⟩

/-- `Grid.hexDistance(tile1, tile2)`: Chebyshev distance of the cube
coordinates, in exact integer arithmetic. -/
def hexDistance (t1 t2 : Tile) : Int :=
  let a := offsetToCube t1.q t1.r
  let b := offsetToCube t2.q t2.r
  max (a.x - b.x).natAbs (max (a.y - b.y).natAbs (a.z - b.z).natAbs)

/-- The whole mutable simulation world: grid dimensions, the tile array
(row-major, index `r * nCols + q`) and the active agent list. -/
structure Grid where
  nRows : Nat
  nCols : Nat
  tiles : List Tile
  agents : List Agent
  deriving DecidableEq, Repr

/-- Bounds test used by `Grid.getTile`. -/
def Grid.inBounds (g : Grid) (q r : Int) : Bool :=
  !(q < 0 || (g.nCols : Int) ≤ q || r < 0 || (g.nRows : Int) ≤ r)

/-- Row-major slot of an in-bounds coordinate. -/
def Grid.idx (g : Grid) (q r : Int) : Nat := (r * (g.nCols : Int) + q).toNat

/-- `Grid.getTile(q, r)`: `none` models the JS `null` for out-of-bounds
input, otherwise the tile at slot `r * nCols + q`. -/
def Grid.getTile (g : Grid) (q r : Int) : Option Tile :=
  if g.inBounds q r then g.tiles.get? (g.idx q r) else none

/-- The odd-column direction table of `Grid.getNeighbors`. -/
def oddColDirections : List (Int × Int) :=
  [(1, 0), (1, 1), (0, 1), (-1, 1), (-1, 0), (0, -1)]

/-- The even-column direction table of `Grid.getNeighbors`. -/
def evenColDirections : List (Int × Int) :=
  [(1, -1), (1, 0), (0, 1), (-1, 0), (-1, -1), (0, -1)]

/-- Direction table selected by column parity; JS `q % 2 === 1` is the
truncated remainder, `Int.tmod`. -/
def neighborDirections (q : Int) : List (Int × Int) :=
  if q.tmod 2 == 1 then oddColDirections else evenColDirections

/-- `Grid.getNeighbors(q, r)`: map the six directions through `getTile`
and drop the `null` results. -/
def Grid.getNeighbors (g : Grid) (q r : Int) : List Tile :=
  ((neighborDirections q).map fun d => g.getTile (q + d.1) (r + d.2)).filterMap id

/-- The slot indices of the (in-bounds) neighbors, in direction order;
the JS neighbor objects are exactly the tiles at these slots. -/
def Grid.getNeighborIdxs (g : Grid) (q r : Int) : List Nat :=
  (neighborDirections q).filterMap fun d =>
    if g.inBounds (q + d.1) (r + d.2) then some (g.idx (q + d.1) (r + d.2)) else none

/-- Replace the tile at a slot (JS in-place mutation of the array cell). -/
def Grid.setTile (g : Grid) (i : Nat) (t : Tile) : Grid :=
  { g with tiles := g.tiles.set i t }

/-- Mutate the tile at a slot when it exists. -/
def Grid.modifyTile (g : Grid) (i : Nat) (f : Tile → Tile) : Grid :=
  match g.tiles.get? i with
  | some t => g.setTile i (f t)
  | none => g

/-- `Grid.getTilesInRange(q, r, range)`, as slot indices (the JS version
returns the tile objects; slots identify them).  Returns `[]` when the
center is out of bounds. -/
def Grid.getTilesInRangeIdxs (g : Grid) (q r : Int) (range : Int) : List Nat :=
  match g.getTile q r with
  | none => []
  | some center =>
      (g.tiles.enum.filter fun p => hexDistance center p.2 ≤ range).map (·.1)

/-- `Tile.canPromote(grid)` for the tile at slot `i`; the JS
`n !== this` object-identity test is the slot-inequality test.
`shadowFactor` is read from the global `controls`. -/
def Grid.canPromoteAt (g : Grid) (i : Nat) (shadowFactor : Frac) : Bool :=
  match g.tiles.get? i with
  | none => false
  | some t =>
    if t.state != S_CRYSTALLIZED then false
    else
      match EVOLUTION t.level with
      | none => false
      | some config =>
        let neighbors := g.getNeighbors t.q t.r
        let lowerNeighbors := neighbors.filter fun n =>
          n.state == S_CRYSTALLIZED && n.level ≤ t.level
        let servedEnough : Bool := config.threshold ≤ lowerNeighbors.length
        let shadowRadius := Frac.ofInt (SERVICE_RANGE config.next) * shadowFactor
        let inShadow := g.tiles.enum.any fun p =>
          p.1 != i && p.2.state == S_CRYSTALLIZED &&
            Frac.ble (Frac.ofInt (hexDistance t p.2)) shadowRadius &&
            config.next ≤ p.2.level
        servedEnough && !inShadow

/-- `Grid._createTiles()` row-major tile list. -/
def createTiles (nRows nCols : Nat) : List Tile :=
  (List.range nRows).flatMap fun r =>
    (List.range nCols).map fun q => Tile.create (q : Int) (r : Int)

/-- `new Grid(nRows, nCols, tileSize)` (tileSize is rendering-only). -/
def Grid.create (nRows nCols : Nat) : Grid :=
  { nRows := nRows, nCols := nCols, tiles := createTiles nRows nCols, agents := [] }

/-- `Grid.seedCenter()`: crystallize the center tile at House level. -/
def Grid.seedCenter (g : Grid) : Grid :=
  let centerQ : Int := (g.nCols : Int) / 2
  let centerR : Int := (g.nRows : Int) / 2
  match g.getTile centerQ centerR with
  | none => g
  | some _ =>
      g.modifyTile (g.idx centerQ centerR) fun t =>
        { t with state := S_CRYSTALLIZED, level := L_HOUSE }

/-- The edge-tile candidate list of `Grid._getRandomEdgeTile`, in push
order (`null` entries for out-of-bounds lookups already filtered, exactly
as the JS `.filter((t) => t !== null)` does), as slot indices. -/
def Grid.edgeTileIdxs (g : Grid) : List Nat :=
  let topBottom := (List.range g.nCols).flatMap fun q =>
    [((q : Int), (0 : Int)), ((q : Int), (g.nRows : Int) - 1)]
  let leftRight := (List.range g.nRows).flatMap fun r =>
    if 1 ≤ r ∧ r < g.nRows - 1 then
      [((0 : Int), (r : Int)), ((g.nCols : Int) - 1, (r : Int))]
    else []
  (topBottom ++ leftRight).filterMap fun p =>
    if g.inBounds p.1 p.2 then some (g.idx p.1 p.2) else none

/-- `Grid._getRandomEdgeTile()`: one uniform draw over the edge list
(p5 `random(array)` is `array[floor(random()*array.length)]`; it consumes
one sample even when the list is empty, returning `undefined` = `none`). -/
def Grid.getRandomEdgeTileIdx (g : Grid) (rng : Rng) : Option Nat × Rng :=
  let edges := g.edgeTileIdxs
  let (u, rng2) := randNext rng
  (edges.get? (Frac.floorToNat (u * Frac.ofInt (edges.length : Int))), rng2)

/-- `Grid.spawnAgent()`: sample one edge tile; create the agent there only
when that tile is not already crystallized. -/
def Grid.spawnAgent (g : Grid) (rng : Rng) : Grid × Rng × Option Agent :=
  let (pick, rng2) := g.getRandomEdgeTileIdx rng
  match pick with
  | none => (g, rng2, none)
  | some i =>
    match g.tiles.get? i with
    | none => (g, rng2, none)
    | some edge =>
      if edge.state != S_CRYSTALLIZED then
        let agent : Agent := ⟨i, true⟩
        ({ g with agents := g.agents ++ [agent] }, rng2, some agent)
      else (g, rng2, none)

/-- Service score, finite part or the explicit infinity the JS fallback
`1 / hexDistance` produces when the distance is zero (JS `1/0 =
Infinity`). -/
structure Score where
  isInf : Bool
  val : Frac
  deriving Repr

/-- JS numeric comparison of scores, `Infinity` greater than all finite
values (two infinite scores never arise on distinct embedded tiles). -/
def Score.blt (a b : Score) : Bool :=
  (!a.isInf && b.isInf) || (!a.isInf && !b.isInf && Frac.blt a.val b.val)

/-- `Agent.getServiceScore(tile)` (a read-only function of the grid and
the scored tile). -/
def Grid.getServiceScore (g : Grid) (tile : Tile) : Score :=
  let base : Frac := g.tiles.foldl (fun score other =>
    if other.state != S_CRYSTALLIZED then score
    else if other.level < L_HOUSE then score
    else
      let dist := hexDistance tile other
      let range := SERVICE_RANGE other.level
      if dist ≤ range then score + Frac.ofInt (range - dist + 1) else score) 0
  if Frac.beq base 0 then
    let centerQ : Int := (g.nCols : Int) / 2
    let centerR : Int := (g.nRows : Int) / 2
    match g.getTile centerQ centerR with
    | none => ⟨false, base⟩
    | some centerTile =>
      let d := hexDistance tile centerTile
      if d == 0 then ⟨true, base⟩
      else ⟨false, base + (1 : Frac) / Frac.ofInt d⟩
  else ⟨false, base⟩

/-- First maximum of a scored list: the JS code stably sorts by descending
score and takes element 0, which is the earliest entry whose score no
later entry strictly exceeds. -/
def argmaxFirst (l : List (Nat × Score)) (dflt : Nat) : Nat :=
  (l.foldl (fun best p =>
    match best with
    | none => some p
    | some b => if Score.blt b.2 p.2 then some p else some b) none)
  |>.map (·.1) |>.getD dflt

/-- `Agent.walk()`: one draw decides biased vs uniform; the biased branch
moves to the best-scoring neighbor (no further draw), the uniform branch
consumes one more draw to pick a neighbor. -/
def Grid.walk (g : Grid) (a : Agent) (ctl : Controls) (rng : Rng) : Agent × Rng :=
  if !a.alive then (a, rng)
  else
    match g.tiles.get? a.tileIdx with
    | none => (a, rng)
    | some t =>
      let nIdxs := g.getNeighborIdxs t.q t.r
      if nIdxs.length == 0 then (a, rng)
      else
        let (u, rng2) := randNext rng
        if Frac.blt u ctl.biasedWalkChance then
          let scored := nIdxs.map fun i =>
            (i, g.getServiceScore ((g.tiles.get? i).getD default))
          ({ a with tileIdx := argmaxFirst scored a.tileIdx }, rng2)
        else
          let (v, rng3) := randNext rng2
          let k := Frac.floorToNat (v * Frac.ofInt (nIdxs.length : Int))
          ({ a with tileIdx := nIdxs.getD k a.tileIdx }, rng3)

/-- `Agent.couldBeCandidate()`: some neighbor of the agent's tile is
crystallized. -/
def Grid.couldBeCandidate (g : Grid) (a : Agent) : Bool :=
  match g.tiles.get? a.tileIdx with
  | none => false
  | some t => (g.getNeighbors t.q t.r).any fun n => n.state == S_CRYSTALLIZED

/-- `Agent.aggregate(rho)`: the returned Bool is the JS return value
(`true` exactly when the tile crystallized this call). -/
def Grid.aggregate (g : Grid) (a : Agent) (rho : Frac) (rng : Rng) :
    Grid × Agent × Rng × Bool :=
  if !a.alive then (g, a, rng, false)
  else
    match g.tiles.get? a.tileIdx with
    | none => (g, a, rng, false)
    | some t =>
      if t.state == S_CRYSTALLIZED then (g, a, rng, false)
      else if g.couldBeCandidate a then
        let t1 := { t with state := S_CANDIDATE }
        let (u, rng2) := randNext rng
        if Frac.blt u rho then
          let t2 := { t1 with state := S_CRYSTALLIZED, level := L_HOUSE }
          (g.setTile a.tileIdx t2, { a with alive := false }, rng2, true)
        else (g.setTile a.tileIdx t1, a, rng2, false)
      else (g, a, rng, false)

/-- The per-tile mutation the evolution pass applies
(`tile.setTargetLevel(EVOLUTION[tile.level].next)`); the `getD 0` default
is unreachable because only `canPromote` tiles (whose rule exists) are
collected. -/
def promoteTile (t : Tile) (now : Frac) : Tile :=
  t.setTargetLevel (((EVOLUTION t.level).map (·.next)).getD 0) now

/-- The collect phase of `Grid.evolveAll()`: slots of non-morphing tiles
satisfying `canPromote`, evaluated on the unmutated grid. -/
def Grid.evolveCollect (g : Grid) (shadowFactor : Frac) : List Nat :=
  (List.range g.tiles.length).filter fun i =>
    match g.tiles.get? i with
    | none => false
    | some t => Frac.ble 1 t.morphProgress && g.canPromoteAt i shadowFactor

/-- `Grid.evolveAll()`: collect, then begin a morph on each collected
tile. -/
def Grid.evolveAll (g : Grid) (shadowFactor : Frac) (now : Frac) : Grid :=
  (g.evolveCollect shadowFactor).foldl
    (fun acc i => acc.modifyTile i fun t => promoteTile t now) g

/-- `Grid.canDieFromCompetition(tile)` for the tile at slot `i`
(object identity again as slot inequality). -/
def Grid.canDieFromCompetition (g : Grid) (i : Nat) : Bool :=
  match g.tiles.get? i with
  | none => false
  | some tile =>
    let range := SERVICE_RANGE tile.level
    let competitors := (g.getTilesInRangeIdxs tile.q tile.r range).filter fun j =>
      j != i && (((g.tiles.get? j).map (·.level)).getD (tile.level + 1) == tile.level)
    match MAX_COMPETITORS tile.level with
    | some cap => cap < competitors.length
    | none => false

/-- `Grid.isServedBy(tile)` for the tile at slot `i`. -/
def Grid.isServedBy (g : Grid) (i : Nat) : Bool :=
  match g.tiles.get? i with
  | none => false
  | some tile =>
    if L_FACTORY ≤ tile.level then !(g.canDieFromCompetition i)
    else
      g.tiles.enum.any fun p =>
        p.1 != i && p.2.state == S_CRYSTALLIZED && tile.level < p.2.level &&
          hexDistance tile p.2 ≤ SERVICE_RANGE p.2.level

/-- The collect phase of `Grid.decayPass()`: walk the tiles in order,
drawing one sample only for crystallized, non-morphing, unserved tiles
(JS `&&` short-circuit), and collect the slots whose draw falls below
`decayProb`. -/
def Grid.decayCollect (g : Grid) (decayProb : Frac) (rng : Rng) : List Nat × Rng :=
  g.tiles.enum.foldl (fun acc p =>
    let (lst, r) := acc
    let (i, tile) := p
    if tile.state != S_CRYSTALLIZED then (lst, r)
    else if Frac.blt tile.morphProgress 1 then (lst, r)
    else if !(g.isServedBy i) then
      let (u, r2) := randNext r
      if Frac.blt u decayProb then (lst ++ [i], r2) else (lst, r2)
    else (lst, r)) ([], rng)

/-- The per-tile demotion the decay pass applies: one level down, or a
morph to `EMPTY` when the result would drop below `HOUSE`. -/
def demoteTile (t : Tile) (now : Frac) : Tile :=
  let newLevel := t.level - 1
  if newLevel < L_HOUSE then t.setTargetLevel L_EMPTY now
  else t.setTargetLevel newLevel now

/-- The body of `Grid.decayPass()` after the bootstrap guard: collect,
then demote each collected slot. -/
def Grid.decayRun (g : Grid) (decayProb : Frac) (now : Frac) (rng : Rng) :
    Grid × Rng :=
  let (toDemote, rng2) := g.decayCollect decayProb rng
  (toDemote.foldl (fun acc i => acc.modifyTile i fun t => demoteTile t now) g,
   rng2)

/-- The count of non-`EMPTY`-state tiles, the quantity the bootstrap guard
of `decayPass` tests. -/
def Grid.nonEmptyCount (g : Grid) : Nat :=
  (g.tiles.filter fun t => t.state != S_EMPTY).length

/-- `Grid.decayPass()`: return immediately (demoting nothing, drawing no
sample) while at most 10 tiles are non-empty, otherwise run the pass. -/
def Grid.decayPass (g : Grid) (decayProb : Frac) (now : Frac) (rng : Rng) :
    Grid × Rng :=
  if g.nonEmptyCount ≤ 10 then (g, rng)
  else g.decayRun decayProb now rng

/-! ## The per-frame simulation step (the unpaused body of `draw()`) -/

/-- The whole mutable world of one run: the grid (tiles and agents), the
LCG state, and the p5 frame counter. -/
structure SimState where
  grid : Grid
  rng : Rng
  frameCount : Nat
  deriving DecidableEq, Repr

/-- The agent-update loop of `draw()`: each agent in list order walks then
aggregates; grid mutations made by earlier agents are visible to later
ones. -/
def agentPass (g : Grid) (ctl : Controls) (rng : Rng) : Grid × Rng :=
  (List.range g.agents.length).foldl (fun acc k =>
    let (g1, r1) := acc
    match g1.agents.get? k with
    | none => (g1, r1)
    | some a =>
      let (a2, r2) := g1.walk a ctl r1
      let (g2, a3, r3, _) := g1.aggregate a2 ctl.stickingProb r2
      ({ g2 with agents := g2.agents.set k a3 }, r3)) (g, rng)

/-- One unpaused `draw()` tick: spawn gate, agent updates, dead-agent
removal, evolution gate, decay gate, then morph advance for every tile.
`now` is the `millis()` wall-clock reading of this frame. -/
def tick (ctl : Controls) (now : Frac) (s : SimState) : SimState :=
  let fc := s.frameCount + 1
  let (g1, rng1) :=
    if fc % ctl.spawnRate == 0 && s.grid.agents.length < ctl.maxAgents then
      let (g, r, _) := s.grid.spawnAgent s.rng
      (g, r)
    else (s.grid, s.rng)
  let (g2, rng2) := agentPass g1 ctl rng1
  let g3 := { g2 with agents := g2.agents.filter (·.alive) }
  let g4 := if fc % ctl.evolveRate == 0 then g3.evolveAll ctl.shadowFactor now else g3
  let (g5, rng3) :=
    if fc % ctl.decayRate == 0 then g4.decayPass ctl.decayProb now rng2
    else (g4, rng2)
  let g6 := { g5 with tiles := g5.tiles.map fun t => t.updateMorphing now }
  { grid := g6, rng := rng3, frameCount := fc }

/-- `reset(seed)` (the sketch's setup / Reset button): rebuild the grid,
seed the center, put the LCG in state `seed`, frame counter at zero. -/
def reset (nRows nCols : Nat) (seed : Nat) : SimState :=
  { grid := (Grid.create nRows nCols).seedCenter, rng := seed, frameCount := 0 }

/-- Run one tick per entry of the `millis()` reading list. -/
def runTicks (ctl : Controls) (times : List Frac) (s : SimState) : SimState :=
  times.foldl (fun st now => tick ctl now st) s

/-- The observable per-tile snapshot named by the determinism property:
state, level, target level and morph progress of every tile. -/
def snapshot (s : SimState) : List (Int × Int × Int × Frac) :=
  s.grid.tiles.map fun t => (t.state, t.level, t.targetLevel, t.morphProgress)

/-- Value-level equality of snapshots (`Frac` compared by value, so the
comparison is representation independent). -/
def snapshotEq (a b : List (Int × Int × Int × Frac)) : Bool :=
  a.length == b.length &&
    (a.zip b).all fun p =>
      p.1.1 == p.2.1 && p.1.2.1 == p.2.2.1 && p.1.2.2.1 == p.2.2.2.1 &&
        Frac.beq p.1.2.2.2 p.2.2.2.2

/-! ## General helper lemmas -/

theorem Frac.ble_one_eq_not_blt (p : Frac) : Frac.ble 1 p = !Frac.blt p 1 := by
  simp only [Frac.ble, Frac.blt, ← decide_not, decide_eq_decide]
  omega

theorem Frac.beq_self (p : Frac) : Frac.beq p p = true := by
  simp [Frac.beq]

theorem List.set_of_get?_eq {α : Type} (l : List α) (i : Nat) (x : α)
    (h : l.get? i = some x) : l.set i x = l := by
  induction l generalizing i with
  | nil => simp at h
  | cons a l ih =>
    cases i with
    | zero => simp_all
    | succ j => simp_all [List.set]

theorem zip_self_all {α : Type} (f : α × α → Bool) (s : List α)
    (hf : ∀ a, f (a, a) = true) : (s.zip s).all f = true := by
  induction s with
  | nil => rfl
  | cons a s ih => simpa [hf] using ih

theorem snapshotEq_refl (s : List (Int × Int × Int × Frac)) : snapshotEq s s = true := by
  simp only [snapshotEq, Bool.and_eq_true, beq_self_eq_true, true_and]
  exact zip_self_all _ s fun a => by simp [Frac.beq_self]

/-! ## C8: hexDistance is a metric -/

/-- The cube `x` coordinate of a tile position. -/
def cubeX (q r : Int) : Int := (offsetToCube q r).x

/-- The cube `y` coordinate of a tile position. -/
def cubeY (q r : Int) : Int := (offsetToCube q r).y

/-- The cube `z` coordinate of a tile position. -/
def cubeZ (q r : Int) : Int := (offsetToCube q r).z

theorem hexDistance_abs (t1 t2 : Tile) :
    hexDistance t1 t2 =
      max |cubeX t1.q t1.r - cubeX t2.q t2.r|
        (max |cubeY t1.q t1.r - cubeY t2.q t2.r|
          |cubeZ t1.q t1.r - cubeZ t2.q t2.r|) := by
  simp only [hexDistance, cubeX, cubeY, cubeZ, Int.abs_eq_natAbs]

theorem cheb_triangle (x1 y1 z1 x2 y2 z2 x3 y3 z3 : Int) :
    max |x1 - x3| (max |y1 - y3| |z1 - z3|) ≤
      max |x1 - x2| (max |y1 - y2| |z1 - z2|) +
        max |x2 - x3| (max |y2 - y3| |z2 - z3|) := by
  refine max_le ?_ (max_le ?_ ?_)
  · exact le_trans (abs_sub_le x1 x2 x3)
      (add_le_add (le_max_left _ _) (le_max_left _ _))
  · exact le_trans (abs_sub_le y1 y2 y3)
      (add_le_add (le_max_of_le_right (le_max_left _ _))
        (le_max_of_le_right (le_max_left _ _)))
  · exact le_trans (abs_sub_le z1 z2 z3)
      (add_le_add (le_max_of_le_right (le_max_right _ _))
        (le_max_of_le_right (le_max_right _ _)))

/-- C8: `hexDistance`, computed by converting each tile's offset
coordinate to cube coordinates and taking the Chebyshev maximum in exact
integer arithmetic, is a metric on tiles: zero on the diagonal, symmetric,
and satisfying the triangle inequality. -/
theorem hexDistance_is_metric (a b c : Tile) :
    hexDistance a a = 0 ∧
    hexDistance a b = hexDistance b a ∧
    hexDistance a c ≤ hexDistance a b + hexDistance b c := by
  refine ⟨?_, ?_, ?_⟩
  · simp [hexDistance_abs]
  · rw [hexDistance_abs, hexDistance_abs, abs_sub_comm (cubeX a.q a.r),
      abs_sub_comm (cubeY a.q a.r), abs_sub_comm (cubeZ a.q a.r)]
  · rw [hexDistance_abs, hexDistance_abs, hexDistance_abs]
    exact cheb_triangle ..

/-! ## Grid coherence: the row-major tile list carries matching coordinates -/

/-- A grid is coherent when its tile list has the created length and the
tile stored at slot `i` carries the coordinates `(i % nCols, i / nCols)`,
exactly as `_createTiles` lays them out.  Every engine operation preserves
the `q`/`r` fields, so every reachable grid is coherent. -/
def Grid.coherent (g : Grid) : Bool :=
  (g.tiles.length == g.nRows * g.nCols) &&
    g.tiles.enum.all fun p =>
      p.2.q == ((p.1 % g.nCols : Nat) : Int) && p.2.r == ((p.1 / g.nCols : Nat) : Int)

theorem coherent_length {g : Grid} (h : g.coherent = true) :
    g.tiles.length = g.nRows * g.nCols := by
  simp only [Grid.coherent, Bool.and_eq_true, beq_iff_eq] at h
  exact h.1

theorem coherent_coords {g : Grid} {i : Nat} {t : Tile} (h : g.coherent = true)
    (hi : g.tiles.get? i = some t) :
    t.q = ((i % g.nCols : Nat) : Int) ∧ t.r = ((i / g.nCols : Nat) : Int) := by
  simp only [Grid.coherent, Bool.and_eq_true, List.all_eq_true, beq_iff_eq] at h
  have hmem : (i, t) ∈ g.tiles.enum := List.mk_mem_enum_iff_get?.mpr hi
  exact h.2 (i, t) hmem

theorem inBounds_iff {g : Grid} {q r : Int} :
    g.inBounds q r = true ↔ 0 ≤ q ∧ q < (g.nCols : Int) ∧ 0 ≤ r ∧ r < (g.nRows : Int) := by
  simp only [Grid.inBounds, Bool.not_eq_true']
  simp only [Bool.or_eq_false_iff, decide_eq_false_iff_not, not_lt, not_le]
  omega

theorem idx_eq {g : Grid} {q r : Int} (hq : 0 ≤ q) (hr : 0 ≤ r) :
    g.idx q r = r.toNat * g.nCols + q.toNat := by
  unfold Grid.idx
  obtain ⟨qn, rfl⟩ := Int.eq_ofNat_of_zero_le hq
  obtain ⟨rn, rfl⟩ := Int.eq_ofNat_of_zero_le hr
  rw [← Nat.cast_mul, ← Nat.cast_add, Int.toNat_natCast, Int.toNat_natCast,
    Int.toNat_natCast]

theorem idx_lt_length {g : Grid} {q r : Int} (hco : g.coherent = true)
    (hb : g.inBounds q r = true) : g.idx q r < g.tiles.length := by
  obtain ⟨hq0, hqc, hr0, hrr⟩ := inBounds_iff.mp hb
  rw [idx_eq hq0 hr0, coherent_length hco]
  have hqn : q.toNat < g.nCols := by omega
  have hrn : r.toNat < g.nRows := by omega
  calc r.toNat * g.nCols + q.toNat < r.toNat * g.nCols + g.nCols :=
        Nat.add_lt_add_left hqn _
    _ = (r.toNat + 1) * g.nCols := by ring
    _ ≤ g.nRows * g.nCols := Nat.mul_le_mul_right _ hrn

theorem getTile_some_of_coherent {g : Grid} {q r : Int} (hco : g.coherent = true)
    (hb : g.inBounds q r = true) :
    ∃ t, g.getTile q r = some t ∧ t.q = q ∧ t.r = r := by
  obtain ⟨hq0, hqc, hr0, hrr⟩ := inBounds_iff.mp hb
  have hlt := idx_lt_length hco hb
  refine ⟨g.tiles.get ⟨g.idx q r, hlt⟩, ?_, ?_, ?_⟩
  · simp [Grid.getTile, hb, List.get?_eq_get hlt]
  · have hc := coherent_coords hco (List.get?_eq_get hlt)
    have hqn : q.toNat < g.nCols := by omega
    have hmod : (r.toNat * g.nCols + q.toNat) % g.nCols = q.toNat := by
      rw [Nat.add_comm, Nat.add_mul_mod_self_right, Nat.mod_eq_of_lt hqn]
    rw [hc.1, idx_eq hq0 hr0, hmod]
    omega
  · have hc := coherent_coords hco (List.get?_eq_get hlt)
    have hqn : q.toNat < g.nCols := by omega
    have h0 : 0 < g.nCols := by omega
    have hdiv : (r.toNat * g.nCols + q.toNat) / g.nCols = r.toNat := by
      rw [Nat.add_comm, Nat.add_mul_div_right _ _ h0, Nat.div_eq_of_lt hqn]
      omega
    rw [hc.2, idx_eq hq0 hr0, hdiv]
    omega

theorem getTile_coords_of_coherent {g : Grid} {q r : Int} {t : Tile}
    (hco : g.coherent = true) (ht : g.getTile q r = some t) :
    t.q = q ∧ t.r = r := by
  have hb : g.inBounds q r = true := by
    by_contra hfalse
    simp only [Grid.getTile] at ht
    rw [if_neg (by simpa using hfalse)] at ht
    exact Option.noConfusion ht
  obtain ⟨u, hu, huq, hur⟩ := getTile_some_of_coherent hco hb
  rw [ht] at hu
  cases hu
  exact ⟨huq, hur⟩

theorem mem_getNeighbors_iff {g : Grid} {q r : Int} {n : Tile} :
    n ∈ g.getNeighbors q r ↔
      ∃ d ∈ neighborDirections q, g.getTile (q + d.1) (r + d.2) = some n := by
  simp [Grid.getNeighbors, List.mem_filterMap, List.mem_map]

/-! ## C9: total coordinate lookups -/

/-- C9: `getTile` is total: on a coherent grid an in-bounds lookup returns
the tile whose coordinates are exactly the requested pair, an out-of-bounds
lookup returns the absent value `none` rather than failing, and the
neighbor list holds exactly the tiles of the successful direction lookups,
with every absent result filtered out. -/
theorem getTile_total (g : Grid) (q r : Int) (hco : g.coherent = true) :
    (g.inBounds q r = true → ∃ t, g.getTile q r = some t ∧ t.q = q ∧ t.r = r) ∧
    (g.inBounds q r = false → g.getTile q r = none) ∧
    (∀ n : Tile, n ∈ g.getNeighbors q r ↔
      ∃ d ∈ neighborDirections q, g.getTile (q + d.1) (r + d.2) = some n) := by
  refine ⟨fun hb => getTile_some_of_coherent hco hb, fun hb => ?_, fun n => mem_getNeighbors_iff⟩
  simp [Grid.getTile, hb]

/-- C9 witness input: a small coherent grid. -/
theorem getTile_total_witness :
    ((Grid.create 3 4).coherent = true) ∧
    ((Grid.create 3 4).inBounds 2 1 = true →
      ∃ t, (Grid.create 3 4).getTile 2 1 = some t ∧ t.q = 2 ∧ t.r = 1) ∧
    ((Grid.create 3 4).inBounds 9 1 = false → (Grid.create 3 4).getTile 9 1 = none) := by
  refine ⟨by decide, ?_, ?_⟩
  · exact (getTile_total (Grid.create 3 4) 2 1 (by decide)).1
  · exact (getTile_total (Grid.create 3 4) 9 1 (by decide)).2.1

/-! ## C7: neighbor lists -/

/-- The Chebyshev cube distance expressed directly on offset coordinates;
`hexDistance` is exactly this function applied to the tiles' coordinate
fields. -/
def hexDistCoord (q1 r1 q2 r2 : Int) : Int :=
  max (((q1 - q2).natAbs : Int))
    (max (((-q1 - (r1 - (q1 - q1 % 2) / 2)) -
           (-q2 - (r2 - (q2 - q2 % 2) / 2))).natAbs : Int)
      ((((r1 - (q1 - q1 % 2) / 2)) - (r2 - (q2 - q2 % 2) / 2)).natAbs : Int))

theorem hexDistance_coords (t1 t2 : Tile) :
    hexDistance t1 t2 = hexDistCoord t1.q t1.r t2.q t2.r := rfl

/-- C7: on a coherent grid, the neighbor list of any in-bounds coordinate
has at most 6 entries, every entry is an in-bounds tile, and every entry
lies at hex distance exactly 1 from the center tile at `(q, r)` (using the
direction table selected by the parity of `q`). -/
theorem getNeighbors_spec (g : Grid) (q r : Int) (hco : g.coherent = true)
    (hb : g.inBounds q r = true) :
    (g.getNeighbors q r).length ≤ 6 ∧
    ∃ c, g.getTile q r = some c ∧ c.q = q ∧ c.r = r ∧
      ∀ n ∈ g.getNeighbors q r, g.inBounds n.q n.r = true ∧ hexDistance c n = 1 := by
  obtain ⟨c, hc, hcq, hcr⟩ := getTile_some_of_coherent hco hb
  refine ⟨?_, c, hc, hcq, hcr, ?_⟩
  · have h1 : (g.getNeighbors q r).length ≤ (neighborDirections q).length := by
      unfold Grid.getNeighbors
      exact le_trans (List.length_filterMap_le _ _) (le_of_eq (List.length_map _ _))
    have h2 : (neighborDirections q).length = 6 := by
      unfold neighborDirections; split <;> rfl
    omega
  · intro n hn
    obtain ⟨d, hd, hget⟩ := mem_getNeighbors_iff.mp hn
    have hnb : g.inBounds (q + d.1) (r + d.2) = true := by
      by_contra hfalse
      simp only [Grid.getTile] at hget
      rw [if_neg (by simpa using hfalse)] at hget
      exact Option.noConfusion hget
    obtain ⟨hnq, hnr⟩ := getTile_coords_of_coherent hco hget
    refine ⟨by rw [hnq, hnr]; exact hnb, ?_⟩
    rw [hexDistance_coords, hcq, hcr, hnq, hnr]
    have hq0 : 0 ≤ q := (inBounds_iff.mp hb).1
    have hemod : q.tmod 2 = q % 2 :=
      Int.tmod_eq_emod hq0 (by norm_num)
    unfold neighborDirections at hd
    by_cases hp : q.tmod 2 = 1
    · have hpar : q % 2 = 1 := by rw [← hemod]; exact hp
      rw [if_pos (by simpa using hp)] at hd
      simp only [oddColDirections, List.mem_cons, List.not_mem_nil, or_false] at hd
      rcases hd with rfl | rfl | rfl | rfl | rfl | rfl <;>
        · unfold hexDistCoord; omega
    · have hpar : q % 2 = 0 := by
        have h1 : 0 ≤ q % 2 := Int.emod_nonneg q (by norm_num)
        have h2 : q % 2 < 2 := Int.emod_lt_of_pos q (by norm_num)
        rw [← hemod] at h1 h2 ⊢
        omega
      rw [if_neg (by simpa using hp)] at hd
      simp only [evenColDirections, List.mem_cons, List.not_mem_nil, or_false] at hd
      rcases hd with rfl | rfl | rfl | rfl | rfl | rfl <;>
        · unfold hexDistCoord; omega

/-- C7 witness input: the 3-by-3 grid at its center coordinate. -/
theorem getNeighbors_spec_witness :
    ((Grid.create 3 3).getNeighbors 1 1).length ≤ 6 ∧
    ∃ c, (Grid.create 3 3).getTile 1 1 = some c ∧ c.q = 1 ∧ c.r = 1 ∧
      ∀ n ∈ (Grid.create 3 3).getNeighbors 1 1,
        (Grid.create 3 3).inBounds n.q n.r = true ∧ hexDistance c n = 1 :=
  getNeighbors_spec (Grid.create 3 3) 1 1 (by decide) (by decide)

/-! ## Concrete test grids -/

/-- Crystallize the tile at a slot at House level (the state an agent
aggregation or the center seeding produces). -/
def crysH (g : Grid) (i : Nat) : Grid :=
  g.modifyTile i fun t => { t with state := S_CRYSTALLIZED, level := L_HOUSE }

/-- 3-by-3 grid whose center tile (slot 4) is a crystallized House with
two crystallized House neighbors (slots 1 and 5) and no tile of level
Shop or higher anywhere. -/
def gHouse : Grid := crysH (crysH (crysH (Grid.create 3 3) 4) 5) 1

/-! ## C5: promotion eligibility -/

/-- C5: `canPromote` returns true only if the tile is crystallized, a
promotion rule exists for its level, the count of crystallized
lower-or-equal-level neighbors reaches the rule's threshold, and no other
crystallized tile of the target level or higher lies within hex distance
`serviceRange(targetLevel) * shadowFactor`. -/
theorem canPromote_necessary (g : Grid) (i : Nat) (sf : Frac)
    (h : g.canPromoteAt i sf = true) :
    ∃ t, g.tiles.get? i = some t ∧
      t.state = S_CRYSTALLIZED ∧
      ∃ cfg, EVOLUTION t.level = some cfg ∧
        cfg.threshold ≤ ((g.getNeighbors t.q t.r).filter fun n =>
          n.state == S_CRYSTALLIZED && n.level ≤ t.level).length ∧
        ∀ j tj, g.tiles.get? j = some tj → j ≠ i →
          tj.state = S_CRYSTALLIZED → cfg.next ≤ tj.level →
          Frac.ble (Frac.ofInt (hexDistance t tj))
            (Frac.ofInt (SERVICE_RANGE cfg.next) * sf) = false := by
  unfold Grid.canPromoteAt at h
  cases ht : g.tiles.get? i with
  | none => simp only [ht] at h; exact Bool.noConfusion h
  | some t =>
    simp only [ht] at h
    refine ⟨t, rfl, ?_⟩
    by_cases hst : t.state = S_CRYSTALLIZED
    case neg => simp [hst] at h
    refine ⟨hst, ?_⟩
    simp only [hst, bne_self_eq_false, Bool.false_eq_true, if_false] at h
    cases hE : EVOLUTION t.level with
    | none => simp only [hE] at h; exact Bool.noConfusion h
    | some cfg =>
      simp only [hE] at h
      simp only [Bool.and_eq_true, Bool.not_eq_true', decide_eq_true_eq] at h
      obtain ⟨hserved, hshadow⟩ := h
      refine ⟨cfg, rfl, hserved, ?_⟩
      intro j tj hj hji hstj hlev
      have hmem : (j, tj) ∈ g.tiles.enum := List.mk_mem_enum_iff_get?.mpr hj
      have hp := List.any_eq_false.mp hshadow (j, tj) hmem
      cases hble : Frac.ble (Frac.ofInt (hexDistance t tj))
          (Frac.ofInt (SERVICE_RANGE cfg.next) * sf) with
      | false => rfl
      | true =>
        exact absurd (by simp [hji, hstj, hlev, hble]) hp

/-- C5 witness: the crystallized-House scenario with two crystallized
lower-or-equal-level neighbors (threshold 2) and nothing of Shop level or
higher in the shadow radius does promote. -/
theorem canPromote_necessary_witness :
    gHouse.canPromoteAt 4 ⟨1, 2⟩ = true ∧
    (∃ t, gHouse.tiles.get? 4 = some t ∧
      t.state = S_CRYSTALLIZED ∧
      ∃ cfg, EVOLUTION t.level = some cfg ∧
        cfg.threshold ≤ ((gHouse.getNeighbors t.q t.r).filter fun n =>
          n.state == S_CRYSTALLIZED && n.level ≤ t.level).length ∧
        ∀ j tj, gHouse.tiles.get? j = some tj → j ≠ 4 →
          tj.state = S_CRYSTALLIZED → cfg.next ≤ tj.level →
          Frac.ble (Frac.ofInt (hexDistance t tj))
            (Frac.ofInt (SERVICE_RANGE cfg.next) * ⟨1, 2⟩) = false) :=
  ⟨by decide, canPromote_necessary gHouse 4 ⟨1, 2⟩ (by decide)⟩

/-! ## C6: the aggregation step -/

/-- C6: `aggregate` is a no-op reporting no success when the agent is dead
or its tile is already crystallized; otherwise, when some neighbor is
crystallized, one random sample is drawn after the tile is marked
Candidate: a sample below the sticking probability commits the tile to
Crystallized at House level, kills the agent and reports success, and any
other sample leaves the tile Candidate, the agent alive, and reports no
crystallization. -/
theorem aggregate_spec (g : Grid) (a : Agent) (rho : Frac) (rng : Rng) :
    (a.alive = false → g.aggregate a rho rng = (g, a, rng, false)) ∧
    (∀ t, g.tiles.get? a.tileIdx = some t → t.state = S_CRYSTALLIZED →
      g.aggregate a rho rng = (g, a, rng, false)) ∧
    (∀ t, a.alive = true → g.tiles.get? a.tileIdx = some t →
      t.state ≠ S_CRYSTALLIZED → g.couldBeCandidate a = true →
      (Frac.blt (randNext rng).1 rho = true →
        g.aggregate a rho rng =
          (g.setTile a.tileIdx { t with state := S_CRYSTALLIZED, level := L_HOUSE },
           { a with alive := false }, (randNext rng).2, true)) ∧
      (Frac.blt (randNext rng).1 rho = false →
        g.aggregate a rho rng =
          (g.setTile a.tileIdx { t with state := S_CANDIDATE }, a,
           (randNext rng).2, false))) := by
  refine ⟨?_, ?_, ?_⟩
  · intro ha
    unfold Grid.aggregate
    simp [ha]
  · intro t ht hst
    have ht2 : g.tiles[a.tileIdx]? = some t := by
      rw [← List.get?_eq_getElem?]; exact ht
    unfold Grid.aggregate
    rcases ha : a.alive with _ | _
    · simp [ha]
    · simp [ha, ht2, hst]
  · intro t ha ht hst hcc
    have ht2 : g.tiles[a.tileIdx]? = some t := by
      rw [← List.get?_eq_getElem?]; exact ht
    rcases hrn : randNext rng with ⟨u, rng2⟩
    constructor <;> intro hblt <;> unfold Grid.aggregate <;>
      simp [ha, ht2, hst, hcc, hrn, hblt]

/-- 1-by-2 grid whose slot 0 is a crystallized House; slot 1 is empty and
adjacent to it. -/
def g12 : Grid := crysH (Grid.create 1 2) 0

/-- C6 witness: the four branches at concrete inputs (dead agent,
crystallized tile, sticking sample below the probability, sample not
below). -/
theorem aggregate_spec_witness :
    (g12.aggregate ⟨0, false⟩ ⟨7, 10⟩ 5 = (g12, ⟨0, false⟩, 5, false)) ∧
    (g12.aggregate ⟨0, true⟩ ⟨7, 10⟩ 5 = (g12, ⟨0, true⟩, 5, false)) ∧
    (g12.aggregate ⟨1, true⟩ 1 5 =
      (g12.setTile 1 { Tile.create 1 0 with state := S_CRYSTALLIZED, level := L_HOUSE },
       ⟨1, false⟩, (randNext 5).2, true)) ∧
    (g12.aggregate ⟨1, true⟩ 0 5 =
      (g12.setTile 1 { Tile.create 1 0 with state := S_CANDIDATE },
       ⟨1, true⟩, (randNext 5).2, false)) :=
  ⟨(aggregate_spec g12 ⟨0, false⟩ ⟨7, 10⟩ 5).1 rfl,
   (aggregate_spec g12 ⟨0, true⟩ ⟨7, 10⟩ 5).2.1
     { Tile.create 0 0 with state := S_CRYSTALLIZED, level := L_HOUSE } (by decide) rfl,
   ((aggregate_spec g12 ⟨1, true⟩ 1 5).2.2 (Tile.create 1 0) rfl (by decide)
     (by decide) (by decide)).1 (by decide),
   ((aggregate_spec g12 ⟨1, true⟩ 0 5).2.2 (Tile.create 1 0) rfl (by decide)
     (by decide) (by decide)).2 (by decide)⟩

/-! ## Level-preservation helpers -/

theorem setTargetLevel_level (t : Tile) (n : Int) (now : Frac) :
    (t.setTargetLevel n now).level = t.level := by
  unfold Tile.setTargetLevel; split <;> rfl

theorem setTargetLevel_state (t : Tile) (n : Int) (now : Frac) :
    (t.setTargetLevel n now).state = t.state := by
  unfold Tile.setTargetLevel; split <;> rfl

theorem promoteTile_level (t : Tile) (now : Frac) :
    (promoteTile t now).level = t.level := setTargetLevel_level ..

theorem demoteTile_level (t : Tile) (now : Frac) :
    (demoteTile t now).level = t.level := by
  show (if t.level - 1 < L_HOUSE then t.setTargetLevel L_EMPTY now
    else t.setTargetLevel (t.level - 1) now).level = t.level
  split <;> exact setTargetLevel_level ..

theorem modifyTile_map_level (g : Grid) (i : Nat) (f : Tile → Tile)
    (hf : ∀ t, (f t).level = t.level) :
    ((g.modifyTile i f).tiles.map (·.level)) = g.tiles.map (·.level) := by
  unfold Grid.modifyTile
  cases hg : g.tiles.get? i with
  | none => rfl
  | some t =>
    show ((g.tiles.set i (f t)).map (·.level)) = _
    have hm : (g.tiles.map (·.level)).get? i = some t.level := by
      rw [List.get?_map, hg]; rfl
    rw [List.map_set, hf]
    exact List.set_of_get?_eq _ _ _ hm

theorem foldl_modify_map_level (idxs : List Nat) (g : Grid) (f : Tile → Tile)
    (hf : ∀ t, (f t).level = t.level) :
    (((idxs.foldl (fun acc i => acc.modifyTile i f) g)).tiles.map (·.level)) =
      g.tiles.map (·.level) := by
  induction idxs generalizing g with
  | nil => rfl
  | cons i rest ih => rw [List.foldl_cons, ih, modifyTile_map_level _ _ _ hf]

theorem spawnAgent_tiles (g : Grid) (rng : Rng) :
    ((g.spawnAgent rng).1).tiles = g.tiles := by
  unfold Grid.spawnAgent
  rcases hp : g.getRandomEdgeTileIdx rng with ⟨pick, rng2⟩
  cases pick with
  | none => rfl
  | some i =>
    cases hg : g.tiles[i]? with
    | none => simp [hg]
    | some edge => by_cases hs : edge.state = S_CRYSTALLIZED <;> simp [hg, hs]

/-! ## C2: when the level field changes -/

/-- C2 (amended): a tile's `level` is untouched by the evolution pass, the
decay pass, and agent spawning; `updateMorphing` changes it only at the
moment a morph completes (progress was below 1 and reaches 1, the level
becoming the morph target); and the two remaining writes are the amended
exceptions: a successful `aggregate` sets the agent's tile to House level
directly, and `seedCenter` sets the center tile to House level
directly. -/
theorem level_change_accounting :
    (∀ (g : Grid) (sf now : Frac),
      ((g.evolveAll sf now).tiles.map (·.level)) = g.tiles.map (·.level)) ∧
    (∀ (g : Grid) (p now : Frac) (rng : Rng),
      (((g.decayPass p now rng).1).tiles.map (·.level)) = g.tiles.map (·.level)) ∧
    (∀ (g : Grid) (rng : Rng), ((g.spawnAgent rng).1).tiles = g.tiles) ∧
    (∀ (g : Grid) (a : Agent) (rho : Frac) (rng : Rng),
      ((g.aggregate a rho rng).1).tiles.map (·.level) =
        if (g.aggregate a rho rng).2.2.2 = true
        then (g.tiles.map (·.level)).set a.tileIdx L_HOUSE
        else g.tiles.map (·.level)) ∧
    (∀ g : Grid, (g.seedCenter.tiles.map (·.level)) =
      if (g.getTile ((g.nCols : Int) / 2) ((g.nRows : Int) / 2)).isSome
      then (g.tiles.map (·.level)).set
        (g.idx ((g.nCols : Int) / 2) ((g.nRows : Int) / 2)) L_HOUSE
      else g.tiles.map (·.level)) ∧
    (∀ (t : Tile) (now : Frac), (t.updateMorphing now).level ≠ t.level →
      Frac.blt t.morphProgress 1 = true ∧
      Frac.ble 1 (t.updateMorphing now).morphProgress = true ∧
      (t.updateMorphing now).level = t.targetLevel) := by
  refine ⟨?_, ?_, spawnAgent_tiles, ?_, ?_, ?_⟩
  · intro g sf now
    unfold Grid.evolveAll
    exact foldl_modify_map_level _ _ _ (fun t => promoteTile_level t now)
  · intro g p now rng
    unfold Grid.decayPass
    split
    · rfl
    · unfold Grid.decayRun
      rcases hc : g.decayCollect p rng with ⟨toDemote, rng2⟩
      exact foldl_modify_map_level _ _ _ (fun t => demoteTile_level t now)
  · intro g a rho rng
    unfold Grid.aggregate
    rcases ha : a.alive with _ | _
    · simp [ha]
    · cases ht : g.tiles[a.tileIdx]? with
      | none => simp [ha, ht]
      | some t =>
        by_cases hst : t.state = S_CRYSTALLIZED
        · simp [ha, ht, hst]
        · by_cases hcc : g.couldBeCandidate a = true
          · rcases hrn : randNext rng with ⟨u, rng2⟩
            have hm : (g.tiles.map (·.level)).get? a.tileIdx = some t.level := by
              rw [List.get?_map, List.get?_eq_getElem?, ht]; rfl
            by_cases hu : Frac.blt u rho = true
            · simp [ha, ht, hst, hcc, hrn, hu, Grid.setTile, List.map_set]
            · simp [ha, ht, hst, hcc, hrn, hu, Grid.setTile, List.map_set,
                List.set_of_get?_eq _ _ _ hm]
          · simp [ha, ht, hst, hcc]
  · intro g
    unfold Grid.seedCenter
    cases hc : g.getTile ((g.nCols : Int) / 2) ((g.nRows : Int) / 2) with
    | none => simp [hc]
    | some c =>
      have hg : g.tiles.get? (g.idx ((g.nCols : Int) / 2) ((g.nRows : Int) / 2)) = some c := by
        unfold Grid.getTile at hc
        by_cases hb : g.inBounds ((g.nCols : Int) / 2) ((g.nRows : Int) / 2) = true
        · rwa [if_pos hb] at hc
        · rw [if_neg hb] at hc; exact Option.noConfusion hc
      simp only [hc, Option.isSome_some, if_true]
      unfold Grid.modifyTile
      rw [hg]
      show ((g.tiles.set (g.idx ((g.nCols : Int) / 2) ((g.nRows : Int) / 2))
        { c with state := S_CRYSTALLIZED, level := L_HOUSE }).map (·.level)) = _
      rw [List.map_set]
  · intro t now hch
    unfold Tile.updateMorphing at hch ⊢
    by_cases h1 : Frac.ble 1 t.morphProgress = true
    · rw [if_pos h1] at hch; exact absurd rfl hch
    · rw [if_neg h1] at hch
      rw [if_neg h1]
      have h1f : Frac.blt t.morphProgress 1 = true := by
        rw [Frac.ble_one_eq_not_blt] at h1
        rcases hb : Frac.blt t.morphProgress 1 with _ | _
        · rw [hb] at h1; exact absurd rfl h1
        · rfl
      refine ⟨h1f, ?_, ?_⟩ <;>
      · by_cases h2 : Frac.ble 1
            (easeInOutCubic (constrain ((now - t.morphStartTime) / t.morphDuration) 0 1)) = true
        · simp only [h2, if_true]
          split <;> simp [h2]
        · simp only [h2] at hch ⊢
          simp only [Bool.false_eq_true, if_false] at hch
          exact absurd rfl hch

/-- A tile one tick away from completing a House-to-Shop morph. -/
def tMorph : Tile :=
  { Tile.create 0 0 with
      level := L_HOUSE
      targetLevel := L_SHOP
      morphProgress := 0
      morphStartTime := 0 }

/-- C2 witness: the evolution pass leaves levels unchanged on a concrete
grid, and a concrete completing morph changes the level exactly at the
moment its progress reaches 1. -/
theorem level_change_accounting_witness :
    ((Grid.create 2 2).evolveAll 1 0).tiles.map (·.level) =
      (Grid.create 2 2).tiles.map (·.level) ∧
    ((tMorph.updateMorphing 1000).level ≠ tMorph.level ∧
      Frac.blt tMorph.morphProgress 1 = true ∧
      Frac.ble 1 ((tMorph.updateMorphing 1000).morphProgress) = true ∧
      (tMorph.updateMorphing 1000).level = tMorph.targetLevel) :=
  ⟨level_change_accounting.1 (Grid.create 2 2) 1 0,
   by decide, level_change_accounting.2.2.2.2.2 tMorph 1000 (by decide)⟩

/-- C2 counterexample: `aggregate` (with a crystallized neighbor and a
sticking sample below the probability) raises the tile's level from Empty
to House directly: its `morphProgress` stays 1 throughout (no morph was
in progress or completed) and its `targetLevel` stays Empty, yet `level`
changes — refuting the claim that `level` only ever changes at the moment
a morph completes. -/
theorem level_change_counterexample :
    (g12.tiles.get? 1).map (fun t => (t.level, t.targetLevel, t.morphProgress)) =
      some (L_EMPTY, L_EMPTY, (1 : Frac)) ∧
    (((g12.aggregate ⟨1, true⟩ 1 0).1).tiles.get? 1).map
        (fun t => (t.level, t.targetLevel, t.morphProgress)) =
      some (L_HOUSE, L_EMPTY, (1 : Frac)) ∧
    (g12.aggregate ⟨1, true⟩ 1 0).2.2.2 = true := by decide

/-! ## C10: the level/state domain invariant -/

/-- The domain invariant of one tile: ordinal level in `0..4` (Empty to
Factory), state in `{0, 1, 2}`, and morph target level in `0..4`. -/
def TileOK (t : Tile) : Prop :=
  0 ≤ t.level ∧ t.level ≤ 4 ∧ 0 ≤ t.state ∧ t.state ≤ 2 ∧
    0 ≤ t.targetLevel ∧ t.targetLevel ≤ 4

instance : DecidablePred TileOK := fun t => by unfold TileOK; exact inferInstance

/-- The domain invariant of a grid: every tile satisfies `TileOK`. -/
def GridOK (g : Grid) : Prop := ∀ t ∈ g.tiles, TileOK t

instance (g : Grid) : Decidable (GridOK g) := List.decidableBAll _ _

theorem TileOK_setTargetLevel {t : Tile} (h : TileOK t) {n : Int} (now : Frac)
    (hn : 0 ≤ n ∧ n ≤ 4) : TileOK (t.setTargetLevel n now) := by
  obtain ⟨h1, h2, h3, h4, h5, h6⟩ := h
  unfold Tile.setTargetLevel
  split
  · exact ⟨h1, h2, h3, h4, h5, h6⟩
  · exact ⟨h1, h2, h3, h4, hn.1, hn.2⟩

theorem TileOK_promoteTile {t : Tile} (h : TileOK t) (now : Frac) :
    TileOK (promoteTile t now) := by
  unfold promoteTile
  refine TileOK_setTargetLevel h now ?_
  unfold EVOLUTION
  split_ifs <;> simp <;> norm_num [L_SHOP, L_TOWER, L_FACTORY]

theorem TileOK_demoteTile {t : Tile} (h : TileOK t) (now : Frac) :
    TileOK (demoteTile t now) := by
  obtain ⟨h1, h2, h3, h4, h5, h6⟩ := h
  show TileOK (if t.level - 1 < L_HOUSE then t.setTargetLevel L_EMPTY now
    else t.setTargetLevel (t.level - 1) now)
  split
  · exact TileOK_setTargetLevel ⟨h1, h2, h3, h4, h5, h6⟩ now (by norm_num [L_EMPTY])
  · refine TileOK_setTargetLevel ⟨h1, h2, h3, h4, h5, h6⟩ now ?_
    unfold L_HOUSE at *
    omega

theorem TileOK_updateMorphing {t : Tile} (h : TileOK t) (now : Frac) :
    TileOK (t.updateMorphing now) := by
  obtain ⟨h1, h2, h3, h4, h5, h6⟩ := h
  unfold Tile.updateMorphing
  split
  · exact ⟨h1, h2, h3, h4, h5, h6⟩
  · dsimp only
    split
    · split
      · exact ⟨h5, h6, by norm_num [S_EMPTY], by norm_num [S_EMPTY], h5, h6⟩
      · exact ⟨h5, h6, h3, h4, h5, h6⟩
    · exact ⟨h1, h2, h3, h4, h5, h6⟩

theorem GridOK_setTile {g : Grid} (hg : GridOK g) (i : Nat) {t2 : Tile}
    (hok : TileOK t2) : GridOK (g.setTile i t2) := by
  intro x hx
  rcases List.mem_or_eq_of_mem_set hx with hx2 | rfl
  · exact hg x hx2
  · exact hok

theorem GridOK_modifyTile {g : Grid} (hg : GridOK g) (i : Nat) {f : Tile → Tile}
    (hf : ∀ t, TileOK t → TileOK (f t)) : GridOK (g.modifyTile i f) := by
  unfold Grid.modifyTile
  cases hget : g.tiles.get? i with
  | none => exact hg
  | some t => exact GridOK_setTile hg i (hf t (hg t (List.get?_mem hget)))

theorem GridOK_foldl_modify (idxs : List Nat) (g : Grid) {f : Tile → Tile}
    (hf : ∀ t, TileOK t → TileOK (f t)) (hg : GridOK g) :
    GridOK (idxs.foldl (fun acc i => acc.modifyTile i f) g) := by
  induction idxs generalizing g with
  | nil => exact hg
  | cons i rest ih => exact ih _ (GridOK_modifyTile hg i hf)

/-- C10: every engine operation preserves the domain invariant (levels in
the ordinal range Empty..Factory, states in {Empty, Candidate,
Crystallized}); a promotion target is always the defined next level (so
Factory, which has no rule, is never promoted), and a demotion below
House targets exactly Empty, never a negative level. -/
theorem invariant_preservation :
    (∀ g : Grid, GridOK g → GridOK g.seedCenter) ∧
    (∀ (g : Grid) (rng : Rng), GridOK g → GridOK (g.spawnAgent rng).1) ∧
    (∀ (g : Grid) (a : Agent) (rho : Frac) (rng : Rng),
      GridOK g → GridOK (g.aggregate a rho rng).1) ∧
    (∀ (g : Grid) (sf now : Frac), GridOK g → GridOK (g.evolveAll sf now)) ∧
    (∀ (g : Grid) (p now : Frac) (rng : Rng),
      GridOK g → GridOK (g.decayPass p now rng).1) ∧
    (∀ (g : Grid) (now : Frac), GridOK g →
      GridOK { g with tiles := g.tiles.map (fun t => t.updateMorphing now) }) ∧
    (∀ (g : Grid) (i : Nat) (sf : Frac) (t : Tile),
      g.canPromoteAt i sf = true → g.tiles.get? i = some t →
      ∃ cfg, EVOLUTION t.level = some cfg ∧ cfg.next = t.level + 1 ∧
        t.level ≠ L_FACTORY ∧ cfg.next ≤ L_FACTORY) ∧
    (∀ (t : Tile) (now : Frac), L_HOUSE ≤ t.level → t.level - 1 < L_HOUSE →
      (demoteTile t now).targetLevel = L_EMPTY) ∧
    (∀ (t : Tile) (now : Frac), 0 ≤ t.targetLevel →
      0 ≤ (demoteTile t now).targetLevel) := by
  refine ⟨?_, ?_, ?_, ?_, ?_, ?_, ?_, ?_, ?_⟩
  · intro g hg
    unfold Grid.seedCenter
    cases hc : g.getTile ((g.nCols : Int) / 2) ((g.nRows : Int) / 2) with
    | none => simpa [hc] using hg
    | some c =>
      simp only [hc]
      exact GridOK_modifyTile hg _ fun t ht =>
        ⟨by norm_num [L_HOUSE], by norm_num [L_HOUSE], by norm_num [S_CRYSTALLIZED],
         by norm_num [S_CRYSTALLIZED], ht.2.2.2.2.1, ht.2.2.2.2.2⟩
  · intro g rng hg x hx
    rw [spawnAgent_tiles] at hx
    exact hg x hx
  · intro g a rho rng hg
    unfold Grid.aggregate
    rcases ha : a.alive with _ | _
    · simpa [ha] using hg
    · cases ht : g.tiles[a.tileIdx]? with
      | none => simpa [ha, ht] using hg
      | some t =>
        have htg : g.tiles.get? a.tileIdx = some t := by
          rw [List.get?_eq_getElem?]; exact ht
        have hok := hg t (List.get?_mem htg)
        by_cases hst : t.state = S_CRYSTALLIZED
        · simpa [ha, ht, hst] using hg
        · by_cases hcc : g.couldBeCandidate a = true
          · rcases hrn : randNext rng with ⟨u, rng2⟩
            by_cases hu : Frac.blt u rho = true
            · have hset : GridOK (g.setTile a.tileIdx
                  { t with state := S_CRYSTALLIZED, level := L_HOUSE }) :=
                GridOK_setTile hg _ ⟨by norm_num [L_HOUSE], by norm_num [L_HOUSE],
                  by norm_num [S_CRYSTALLIZED], by norm_num [S_CRYSTALLIZED],
                  hok.2.2.2.2.1, hok.2.2.2.2.2⟩
              simpa [ha, ht, hst, hcc, hrn, hu] using hset
            · have hset : GridOK (g.setTile a.tileIdx { t with state := S_CANDIDATE }) :=
                GridOK_setTile hg _ ⟨hok.1, hok.2.1, by norm_num [S_CANDIDATE],
                  by norm_num [S_CANDIDATE], hok.2.2.2.2.1, hok.2.2.2.2.2⟩
              simpa [ha, ht, hst, hcc, hrn, hu] using hset
          · simpa [ha, ht, hst, hcc] using hg
  · intro g sf now hg
    unfold Grid.evolveAll
    exact GridOK_foldl_modify _ _ (fun t ht => TileOK_promoteTile ht now) hg
  · intro g p now rng hg
    unfold Grid.decayPass
    split
    · exact hg
    · unfold Grid.decayRun
      rcases hc : g.decayCollect p rng with ⟨lst, r2⟩
      simp only [hc]
      exact GridOK_foldl_modify _ _ (fun t ht => TileOK_demoteTile ht now) hg
  · intro g now hg x hx
    rw [List.mem_map] at hx
    obtain ⟨t, htl, rfl⟩ := hx
    exact TileOK_updateMorphing (hg t htl) now
  · intro g i sf t h ht
    unfold Grid.canPromoteAt at h
    simp only [ht] at h
    by_cases hst : t.state = S_CRYSTALLIZED
    case neg => simp [hst] at h
    simp only [hst, bne_self_eq_false, Bool.false_eq_true, if_false] at h
    cases hE : EVOLUTION t.level with
    | none => simp only [hE] at h; exact Bool.noConfusion h
    | some cfg =>
      refine ⟨cfg, rfl, ?_⟩
      unfold EVOLUTION at hE
      split_ifs at hE with e1 e2 e3
      · cases hE
        simp only [beq_iff_eq] at e1
        rw [e1]
        refine ⟨by norm_num [L_SHOP], by norm_num [L_FACTORY], by norm_num [L_SHOP, L_FACTORY]⟩
      · cases hE
        simp only [beq_iff_eq] at e2
        rw [e2]
        refine ⟨by norm_num [L_TOWER], by norm_num [L_FACTORY], by norm_num [L_TOWER, L_FACTORY]⟩
      · cases hE
        simp only [beq_iff_eq] at e3
        rw [e3]
        refine ⟨by norm_num [L_FACTORY], by norm_num [L_FACTORY], by norm_num [L_FACTORY]⟩
  · intro t now h1 h2
    show (if t.level - 1 < L_HOUSE then t.setTargetLevel L_EMPTY now
      else t.setTargetLevel (t.level - 1) now).targetLevel = L_EMPTY
    rw [if_pos h2]
    unfold Tile.setTargetLevel
    split
    · next heq =>
      simp only [beq_iff_eq] at heq
      unfold L_EMPTY L_HOUSE at *
      omega
    · rfl
  · intro t now ht
    show 0 ≤ (if t.level - 1 < L_HOUSE then t.setTargetLevel L_EMPTY now
      else t.setTargetLevel (t.level - 1) now).targetLevel
    by_cases hlt : t.level - 1 < L_HOUSE
    · rw [if_pos hlt]
      unfold Tile.setTargetLevel
      split
      · exact ht
      · norm_num [L_EMPTY]
    · rw [if_neg hlt]
      unfold Tile.setTargetLevel
      split
      · exact ht
      · show (0 : Int) ≤ t.level - 1
        unfold L_HOUSE at hlt
        omega

/-- C10 witness: applications at a concrete invariant-satisfying grid and
a concrete House tile demotion. -/
theorem invariant_preservation_witness :
    (GridOK gHouse) ∧ GridOK gHouse.seedCenter ∧
    GridOK (gHouse.evolveAll ⟨1, 2⟩ 0) ∧
    GridOK (gHouse.decayPass ⟨1, 2⟩ 0 7).1 ∧
    (∃ cfg, EVOLUTION (Tile.create 0 0).level = some cfg ∧
      cfg.next = (Tile.create 0 0).level + 1 ∧
      (Tile.create 0 0).level ≠ L_FACTORY ∧ cfg.next ≤ L_FACTORY → False) ∧
    (demoteTile { Tile.create 0 0 with level := L_HOUSE } 0).targetLevel = L_EMPTY :=
  ⟨by decide, invariant_preservation.1 gHouse (by decide),
   invariant_preservation.2.2.2.1 gHouse ⟨1, 2⟩ 0 (by decide),
   invariant_preservation.2.2.2.2.1 gHouse ⟨1, 2⟩ 0 7 (by decide),
   ⟨⟨2, L_SHOP⟩, by decide⟩,
   invariant_preservation.2.2.2.2.2.2.2.1 { Tile.create 0 0 with level := L_HOUSE } 0
     (by decide) (by decide)⟩

/-! ## C3: the decay bootstrap guard -/

/-- C3 (amended): the decay pass returns the grid unchanged (demoting no
tile, drawing no sample) exactly while AT MOST 10 tiles are non-Empty;
with 11 or more non-Empty tiles the guard no longer suppresses the
pass. -/
theorem decayPass_guard (g : Grid) (p now : Frac) (rng : Rng) :
    (g.nonEmptyCount ≤ 10 → g.decayPass p now rng = (g, rng)) ∧
    (10 < g.nonEmptyCount → g.decayPass p now rng = g.decayRun p now rng) := by
  constructor <;> intro h <;> unfold Grid.decayPass
  · rw [if_pos h]
  · rw [if_neg (by omega)]

/-- 4-by-3 grid with exactly 10 crystallized House tiles, none of them
served by any higher-level tile. -/
def gTen : Grid := (List.range 10).foldl crysH (Grid.create 4 3)

/-- 4-by-3 grid with 11 crystallized House tiles. -/
def gEleven : Grid := (List.range 11).foldl crysH (Grid.create 4 3)

/-- C3 witness: the guard at a grid of 10 non-Empty tiles (pass
suppressed) and at a grid of 11 (pass runs). -/
theorem decayPass_guard_witness :
    (gTen.nonEmptyCount ≤ 10 ∧ gTen.decayPass 1 0 3 = (gTen, 3)) ∧
    (10 < gEleven.nonEmptyCount ∧
      gEleven.decayPass 1 0 3 = gEleven.decayRun 1 0 3) :=
  ⟨⟨by decide, (decayPass_guard gTen 1 0 3).1 (by decide)⟩,
   ⟨by decide, (decayPass_guard gEleven 1 0 3).2 (by decide)⟩⟩

/-- C3 counterexample: with exactly 10 non-Empty tiles — "10 or more" in
the claim's words — the pass is still skipped: every crystallized tile is
starving (`isServedBy` false) and the decay probability is 1, yet
`decayPass` demotes nothing, while the unguarded pass body would have
begun demotion morphs.  The grace period thus covers "at most 10", not
"fewer than 10". -/
theorem decayPass_guard_counterexample :
    gTen.nonEmptyCount = 10 ∧
    (∀ i ∈ List.range 10, gTen.isServedBy i = false) ∧
    gTen.decayPass 1 0 3 = (gTen, 3) ∧
    (gTen.decayRun 1 0 3).1.tiles.map (·.morphProgress) ≠
      gTen.tiles.map (·.morphProgress) := by decide

/-! ## C4: agent spawning -/

/-- C4 (amended): a spawn attempt samples one tile uniformly from the edge
list; when the sampled tile is not crystallized a new agent is created on
it and appended to the agent list, and when it is crystallized no agent is
spawned at all that tick (there is no resampling). -/
theorem spawnAgent_spec (g : Grid) (rng : Rng) (i : Nat) (t : Tile)
    (hp : (g.getRandomEdgeTileIdx rng).1 = some i)
    (ht : g.tiles.get? i = some t) :
    i ∈ g.edgeTileIdxs ∧
    (t.state ≠ S_CRYSTALLIZED →
      g.spawnAgent rng = ({ g with agents := g.agents ++ [⟨i, true⟩] },
        (g.getRandomEdgeTileIdx rng).2, some ⟨i, true⟩)) ∧
    (t.state = S_CRYSTALLIZED →
      g.spawnAgent rng = (g, (g.getRandomEdgeTileIdx rng).2, none)) := by
  have ht2 : g.tiles[i]? = some t := by rw [← List.get?_eq_getElem?]; exact ht
  refine ⟨?_, ?_, ?_⟩
  · unfold Grid.getRandomEdgeTileIdx at hp
    rcases hrn : randNext rng with ⟨u, r2⟩
    rw [hrn] at hp
    exact List.get?_mem hp
  · intro hst
    unfold Grid.spawnAgent
    rcases hpr : g.getRandomEdgeTileIdx rng with ⟨pick, rng2⟩
    have hpick : pick = some i := by rw [hpr] at hp; exact hp
    subst hpick
    simp [ht2, hst]
  · intro hst
    unfold Grid.spawnAgent
    rcases hpr : g.getRandomEdgeTileIdx rng with ⟨pick, rng2⟩
    have hpick : pick = some i := by rw [hpr] at hp; exact hp
    subst hpick
    simp [ht2, hst]

/-- 2-by-2 grid whose slot 0 (edge tile, as all four are) is crystallized;
the other three edge tiles are empty. -/
def g22 : Grid := crysH (Grid.create 2 2) 0

/-- C4 witness: with LCG state 0 the sampled edge tile is the
crystallized slot 0 and no agent spawns; with LCG state 100 the sampled
edge tile is the empty slot 2 and an agent spawns there. -/
theorem spawnAgent_spec_witness :
    (0 ∈ g22.edgeTileIdxs ∧
      g22.spawnAgent 0 = (g22, (g22.getRandomEdgeTileIdx 0).2, none)) ∧
    (2 ∈ g22.edgeTileIdxs ∧
      g22.spawnAgent 100 = ({ g22 with agents := g22.agents ++ [⟨2, true⟩] },
        (g22.getRandomEdgeTileIdx 100).2, some ⟨2, true⟩)) :=
  ⟨⟨(spawnAgent_spec g22 0 0 { Tile.create 0 0 with
        state := S_CRYSTALLIZED, level := L_HOUSE } (by decide) (by decide)).1,
    (spawnAgent_spec g22 0 0 { Tile.create 0 0 with
        state := S_CRYSTALLIZED, level := L_HOUSE } (by decide) (by decide)).2.2 (by decide)⟩,
   ⟨(spawnAgent_spec g22 100 2 (Tile.create 0 1) (by decide) (by decide)).1,
    (spawnAgent_spec g22 100 2 (Tile.create 0 1) (by decide) (by decide)).2.1 (by decide)⟩⟩

/-- C4 counterexample: a spawn attempt under the agent cap (the active
agent set is empty) creates NO agent, because the uniformly sampled edge
tile happens to be crystallized — even though non-crystallized edge tiles
exist.  This refutes the claim that a spawn attempt under the cap always
yields a new agent on a non-crystallized edge tile. -/
theorem spawnAgent_counterexample :
    g22.agents.length = 0 ∧
    (g22.spawnAgent 0).2.2 = none ∧
    (g22.spawnAgent 0).1.agents = [] ∧
    (∃ j ∈ g22.edgeTileIdxs, ∃ t, g22.tiles.get? j = some t ∧
      t.state ≠ S_CRYSTALLIZED) := by decide

/-! ## C1: determinism of the simulation trace -/

/-- The configuration used by the concrete determinism runs (all values
reachable from the control panel). -/
def testControls : Controls :=
  { spawnRate := 1, maxAgents := 50, stickingProb := 1, evolveRate := 5,
    shadowFactor := 2, biasedWalkChance := 0, decayRate := 20, decayProb := ⟨1, 2⟩ }

/-- C1 (amended): after a reset with a seed, the simulation trace is a
function of the seed, the configuration AND the per-frame wall-clock
(`millis`) readings: two runs agreeing on all three produce value-identical
snapshots.  (The unamended claim — a function of seed and configuration
alone — is refuted by the counterexample, where only the time readings
differ.) -/
theorem run_deterministic (nRows nCols seed : Nat) (ctl : Controls)
    (times1 times2 : List Frac) (h : times1 = times2) :
    snapshotEq (snapshot (runTicks ctl times1 (reset nRows nCols seed)))
      (snapshot (runTicks ctl times2 (reset nRows nCols seed))) = true := by
  subst h
  exact snapshotEq_refl _

/-- C1 witness: two equally-timed runs from seed 42. -/
theorem run_deterministic_witness :
    snapshotEq (snapshot (runTicks testControls [0, 0] (reset 3 3 42)))
      (snapshot (runTicks testControls [0, 0] (reset 3 3 42))) = true :=
  run_deterministic 3 3 42 testControls [0, 0] [0, 0] rfl

/-- C1 counterexample: same seed (42), same configuration, same number of
ticks (six), but a different wall-clock reading on the sixth frame: the
snapshots differ (the morphs begun by the evolution pass at frame five
have progressed differently), so after `reset(seed)` the tile state
snapshot after N ticks is NOT a function of (seed, configuration) alone —
the `millis()` stream is a third input. -/
theorem run_deterministic_counterexample :
    ([(0 : Frac), 0, 0, 0, 0, 0].length = [(0 : Frac), 0, 0, 0, 0, 500].length) ∧
    snapshotEq (snapshot (runTicks testControls [0, 0, 0, 0, 0, 0] (reset 3 3 42)))
      (snapshot (runTicks testControls [0, 0, 0, 0, 0, 500] (reset 3 3 42))) = false := by
  constructor
  · rfl
  · decide

end Genuary8
